import Mathlib

/-!
Shallow embedding of the knowledge-retrieval and adaptive skill-progress
engine of the `model-dicobuddy` repository, together with proofs about it.

Embedded source files:
* `src/app/skill_progress_engine.py` (tiered Skill Progress Calculator),
* `src/app/adaptive_filter.py` (adaptive roadmap filter),
* `src/app/kb_utils.py` (retrieval scorer),
* `src/app/handler.py` (`deep_merge`, roadmap-progress patch construction).

Modelling conventions: Python floats and ints are modelled as exact
rationals (`ℚ`); Python dicts are association lists with first-binding
lookup and replace-or-append update; fallible conversions return `Option`.
-/

namespace MDB

/-- A Python/JSON value as it appears in the profile and roadmap structures.
Numbers (ints and floats) are modelled as exact rationals. -/
inductive Val : Type where
  | vnone : Val
  | bool : Bool → Val
  | num : ℚ → Val
  | str : String → Val
  | list : List Val → Val
  | dict : List (String × Val) → Val

/-- Python truthiness of a value (`if not x: ...`). -/
def pyTruthy : Val → Bool
  | .vnone => false
  | .bool b => b
  | .num q => q != 0
  | .str s => s != ""
  | .list l => !l.isEmpty
  | .dict d => !d.isEmpty

/-- First-binding lookup in an association list (Python `d.get(k)` /
`k in d` when the list represents a dict). -/
def alookup {κ α : Type} [DecidableEq κ] (k : κ) : List (κ × α) → Option α
  | [] => none
  | (k', v) :: t => if k' = k then some v else alookup k t

/-- Python `d[k] = v` on an association list representing a dict:
replace the first binding of `k` if present, otherwise append. -/
def aset {κ α : Type} [DecidableEq κ] (l : List (κ × α)) (k : κ) (v : α) :
    List (κ × α) :=
  match l with
  | [] => [(k, v)]
  | (k', v') :: t => if k' = k then (k', v) :: t else (k', v') :: aset t k v

/-- Python `d.pop(k)` on an association list representing a dict:
remove the first binding of `k` (a dict has at most one). -/
def apop {κ α : Type} [DecidableEq κ] (l : List (κ × α)) (k : κ) :
    List (κ × α) :=
  match l with
  | [] => []
  | (k', v') :: t => if k' = k then t else (k', v') :: apop t k

/-- The keys of an association list, in order. -/
def akeys {κ α : Type} (l : List (κ × α)) : List κ := l.map Prod.fst

/-!
### `deep_merge` (src/app/handler.py, lines 1055-1064)

```python
def deep_merge(a, b):
    if not isinstance(a, dict) or not isinstance(b, dict):
        return b
    out = dict(a)
    for k, v in b.items():
        if k in out and isinstance(out[k], dict) and isinstance(v, dict):
            out[k] = deep_merge(out[k], v)
        else:
            out[k] = v
    return out
```

Note that when `k in out`, `out[k] = deep_merge(out[k], v)` coincides with
the source's conditional assignment, because `deep_merge` returns its
second argument whenever the two are not both dicts; and when `k` is
absent, setting `out[k] = v` is an append.  `dmList` is the `for` loop and
`dmSet` is one `out[k] = ...` store.
-/

mutual

def deep_merge : Val → Val → Val
  | .dict a, .dict b => .dict (dmList a b)
  | _, b => b
termination_by _ b => (sizeOf b, 0, 0)

def dmList : List (String × Val) → List (String × Val) → List (String × Val)
  | out, [] => out
  | out, (k, v) :: rest => dmList (dmSet out k v) rest
termination_by _ b => (sizeOf b, 1, 0)

def dmSet : List (String × Val) → String → Val → List (String × Val)
  | [], k, v => [(k, v)]
  | (k', v') :: t, k, v =>
      if k' = k then (k', deep_merge v' v) :: t
      else (k', v') :: dmSet t k v
termination_by l _ v => (sizeOf v, 2, sizeOf l)

end

/-- Is this value a Python dict? (`isinstance(x, dict)`). -/
def Val.isDict : Val → Bool
  | .dict _ => true
  | _ => false

/-!
### Skill Progress Engine (src/app/skill_progress_engine.py)

Course progress percents, thresholds and averages are modelled as exact
rationals.  `round(x, 2)` on Python floats is modelled as round-half-even
at two decimal places on rationals.
-/

/-- ASCII lowercasing of one character (`str.lower()`; the names compared
by the source are ASCII course titles). -/
def asciiLower (c : Char) : Char :=
  if 65 ≤ c.toNat ∧ c.toNat ≤ 90 then Char.ofNat (c.toNat + 32) else c

/-- Python `str.strip()`: drop surrounding whitespace. -/
def pyStrip (s : String) : String :=
  ⟨((s.toList.dropWhile Char.isWhitespace).reverse.dropWhile
      Char.isWhitespace).reverse⟩

/-- Python `str.lower()` (ASCII). -/
def pyLower (s : String) : String := ⟨s.toList.map asciiLower⟩

/-- `s.strip().lower()` as used for case-insensitive course-name matching. -/
def pyLowerStrip (s : String) : String := pyLower (pyStrip s)

/-- One catalog entry as built by `build_course_lookup`.  Field values are
taken from the course JSON; a missing field is `none`. -/
structure CatalogInfo where
  course_name : Option String := none
  learning_path_id : Option ℚ := none
  hours_to_study : Option ℚ := none
  course_level_str : Option String := none

/-- One raw course object of the course catalog list.  `course_id` is
`none` when the `course_id` field is missing or not convertible by
`int(...)` (that record is skipped by `build_course_lookup`). -/
structure CourseRecord where
  course_id : Option Int := none
  course_name : Option String := none
  learning_path_id : Option ℚ := none
  hours_to_study : Option ℚ := none
  course_level_str : Option String := none

/-- `build_course_lookup(course_list)`: catalog dict
`course_id -> {course_name, learning_path_id, hours_to_study, course_level_str}`;
records without a convertible `course_id` are skipped, later records with
the same id overwrite earlier ones (dict semantics). -/
def build_course_lookup (course_list : List CourseRecord) :
    List (Int × CatalogInfo) :=
  course_list.foldl (fun catalog c =>
    match c.course_id with
    | none => catalog
    | some cid =>
        aset catalog cid
          { course_name := c.course_name
            learning_path_id := c.learning_path_id
            hours_to_study := c.hours_to_study
            course_level_str := c.course_level_str }) []

/-- The case-insensitive fallback loop of `_safe_get_course_progress_by_id`:
the first entry whose stripped+lowercased key equals the stripped+lowercased
course name is returned as-is (`float(v)`, which always succeeds on the
numeric values stored in the normalized progress map) — note: unclamped. -/
def fallbackLookup (name : String) : List (String × ℚ) → Option ℚ
  | [] => none
  | (k, v) :: t =>
      if pyLowerStrip k = pyLowerStrip name then some v else fallbackLookup name t

/-- `_safe_get_course_progress_by_id(course_id, course_progress_map_by_name,
catalog)`: resolve a course id to a progress percent through the catalog
name.  The direct-name branch clamps to `[0, 100]`; the case-insensitive
fallback branch returns the stored value unclamped (see C8). -/
def safe_get_course_progress_by_id (course_id : Int)
    (course_progress_map_by_name : List (String × ℚ))
    (catalog : List (Int × CatalogInfo)) : Option ℚ :=
  match alookup course_id catalog with
  | none => none
  | some info =>
    match info.course_name with
    | none => none
    | some name =>
      if name = "" then none    -- `if not name: return None`
      else
        match alookup name course_progress_map_by_name with
        | some v => some (if v < 0 then 0 else if 100 < v then 100 else v)
        | none => fallbackLookup name course_progress_map_by_name

/-- The thresholds dict; the default is `{"advanced": 80, "intermediate": 40,
"beginner": 1}`. -/
structure Thresholds where
  advanced : ℚ := 80
  intermediate : ℚ := 40
  beginner : ℚ := 1

/-- `subskill.get("mapped_courses", {}) or {}` with `mapped.get(lvl) or []`
per tier; course ids in the roadmap JSON are integers. -/
structure MappedCourses where
  beginner : List Int := []
  intermediate : List Int := []
  advanced : List Int := []

/-- The slice of a roadmap subskill consumed by the progress engine. -/
structure Subskill where
  id : Option String := none
  name : Option String := none
  mapped_courses : MappedCourses := {}

/-- The resolved progress values of one tier: each mapped course id is
looked up through the catalog; unresolved courses contribute nothing. -/
def tierVals (arr : List Int) (cp : List (String × ℚ))
    (catalog : List (Int × CatalogInfo)) : List ℚ :=
  arr.filterMap fun cid => safe_get_course_progress_by_id cid cp catalog

/-- `sum(vals)/len(vals)` for a non-empty tier, `None` for an empty one. -/
def tierAvg : List ℚ → Option ℚ
  | [] => none
  | vals => some (vals.sum / (vals.length : ℚ))

/-- Round half to even (Python 3 `round`) to an integer. -/
def roundHalfEven (q : ℚ) : ℤ :=
  let f := ⌊q⌋
  let r := q - f
  if r < 1/2 then f
  else if 1/2 < r then f + 1
  else if f % 2 = 0 then f else f + 1

/-- Python `round(x, 2)` modelled on exact rationals. -/
def pyRound2 (q : ℚ) : ℚ := (roundHalfEven (q * 100) : ℚ) / 100

/-- `per.get(lvl) is not None and per[lvl] >= threshold`. -/
def tierMeets (o : Option ℚ) (t : ℚ) : Bool :=
  match o with
  | some v => decide (t ≤ v)
  | none => false

/-- The level-decision block of `compute_subskill_progress` (descending
priority; the `except` fallback is unreachable for the modelled total
inputs because all threshold keys exist and all comparisons are defined). -/
def levelOf (pb pi_ pa : Option ℚ) (thresholds : Thresholds) : String :=
  if tierMeets pa thresholds.advanced then "Advanced"
  else if tierMeets pi_ thresholds.intermediate then "Intermediate"
  else if tierMeets pb thresholds.beginner || tierMeets pi_ thresholds.beginner
      || tierMeets pa thresholds.beginner then "Beginner"
  else "not_started"

/-- The overall percent: average of the non-`None` tier averages, `0.0` if
there are none. -/
def overallOf (pb pi_ pa : Option ℚ) : ℚ :=
  let all_vals := [pb, pi_, pa].reduceOption
  if all_vals = [] then 0 else all_vals.sum / (all_vals.length : ℚ)

/-- The per-level percent dict `{"beginner": ..., "intermediate": ...,
"advanced": ...}`. -/
structure PerLevelPercent where
  beginner : Option ℚ
  intermediate : Option ℚ
  advanced : Option ℚ

/-- The dict returned by `compute_subskill_progress`. -/
structure SubskillStatus where
  name : Option String
  level : String
  overall_percent : ℚ
  per_level_percent : PerLevelPercent
  source_course_ids : List Int

/-- `compute_subskill_progress(subskill, course_progress_map_by_name,
catalog, thresholds=None)`. `source_ids` collects every mapped course id
(found or not); the returned percents are rounded to two decimals, the
level is decided on the unrounded averages. -/
def compute_subskill_progress (subskill : Subskill)
    (course_progress_map_by_name : List (String × ℚ))
    (catalog : List (Int × CatalogInfo))
    (thresholds : Thresholds := {}) : SubskillStatus :=
  let mapped := subskill.mapped_courses
  let pb := tierAvg (tierVals mapped.beginner course_progress_map_by_name catalog)
  let pi_ := tierAvg (tierVals mapped.intermediate course_progress_map_by_name catalog)
  let pa := tierAvg (tierVals mapped.advanced course_progress_map_by_name catalog)
  let source_ids := mapped.beginner ++ mapped.intermediate ++ mapped.advanced
  { name := subskill.name
    level := levelOf pb pi_ pa thresholds
    overall_percent := pyRound2 (overallOf pb pi_ pa)
    per_level_percent :=
      { beginner := pb.map pyRound2
        intermediate := pi_.map pyRound2
        advanced := pa.map pyRound2 }
    source_course_ids := List.insertionSort (· ≤ ·) source_ids.dedup }

/-- An optional percent as a JSON value. -/
def optNumVal : Option ℚ → Val
  | some q => .num q
  | none => .vnone

/-- An optional string as a JSON value. -/
def optStrVal : Option String → Val
  | some s => .str s
  | none => .vnone

/-- The dict literal returned by `compute_subskill_progress`, as a value:
exactly the keys `name`, `level`, `overall_percent`, `per_level_percent`
and `source_course_ids` (there is no `status` key). -/
def SubskillStatus.toVal (r : SubskillStatus) : Val :=
  .dict [("name", optStrVal r.name),
         ("level", .str r.level),
         ("overall_percent", .num r.overall_percent),
         ("per_level_percent", .dict
            [("beginner", optNumVal r.per_level_percent.beginner),
             ("intermediate", optNumVal r.per_level_percent.intermediate),
             ("advanced", optNumVal r.per_level_percent.advanced)]),
         ("source_course_ids", .list (r.source_course_ids.map fun i => .num i))]

/-- The keys of a dict value, in order. -/
def Val.dictKeys : Val → List String
  | .dict d => akeys d
  | _ => []

/-- Decimal-literal parser backing the model of Python `float(str)`:
optional sign, then digits with an optional fractional part.  Exponent
forms, `inf`/`nan` and underscore separators are not modelled. -/
def parseDecimal (s : String) : Option ℚ :=
  let chars := (pyStrip s).toList
  let signRest : ℚ × List Char :=
    match chars with
    | '-' :: t => (-1, t)
    | '+' :: t => (1, t)
    | t => (1, t)
  let sign := signRest.1
  let rest := signRest.2
  let intPart := rest.takeWhile Char.isDigit
  let rest2 := rest.drop intPart.length
  let digitsToNat : List Char → Nat :=
    fun l => l.foldl (fun n c => n * 10 + (c.toNat - '0'.toNat)) 0
  match rest2 with
  | [] =>
      if intPart.isEmpty then none
      else some (sign * (digitsToNat intPart : ℚ))
  | '.' :: fracRest =>
      let fracPart := fracRest.takeWhile Char.isDigit
      if !(fracRest.drop fracPart.length).isEmpty then none
      else if intPart.isEmpty && fracPart.isEmpty then none
      else some (sign * ((digitsToNat intPart : ℚ)
        + (digitsToNat fracPart : ℚ) / (10 ^ fracPart.length : ℚ)))
  | _ => none

/-- Python `float(v)` on a modelled value: numbers pass through, booleans
become `0`/`1`, numeric strings are parsed, everything else raises
(`none`). -/
def pyFloat : Val → Option ℚ
  | .num q => some q
  | .bool b => some (if b then 1 else 0)
  | .str s => parseDecimal s
  | _ => none

/-- The course-progress normalization loop of
`generate_skill_progress_for_roadmap`: keys are stripped, values converted
with `float`; entries whose value cannot be converted are skipped.  (The
source's second attempt `float(str(v).strip())` succeeds exactly when the
first `float(v)` does on the modelled values, so it adds nothing.) -/
def cpStep (cp : List (String × ℚ)) (kv : String × Val) :
    List (String × ℚ) :=
  match pyFloat kv.2 with
  | some q => aset cp (pyStrip kv.1) q
  | none => cp

/-- See `cpStep`; the loop starts from the empty dict `cp = {}`. -/
def normalize_course_progress (raw_cp : List (String × Val)) :
    List (String × ℚ) :=
  raw_cp.foldl cpStep []

/-- `profile.platform_data` slice read by the progress engine. -/
structure PlatformData where
  course_progress : List (String × Val) := []

/-- The profile slice read by the progress engine. -/
structure Profile where
  platform_data : PlatformData := {}

/-- The roadmap slice read by the progress engine. -/
structure Roadmap where
  job_role : Option String := none
  subskills : List Subskill := []

/-- One iteration of the subskill loop of
`generate_skill_progress_for_roadmap`: subskills with a falsy id (`None`
or empty) are skipped, otherwise `skills_status[sid] = result`. -/
def skillStep (cp : List (String × ℚ)) (catalog : List (Int × CatalogInfo))
    (thresholds : Thresholds)
    (skills_status : List (String × SubskillStatus)) (s : Subskill) :
    List (String × SubskillStatus) :=
  match s.id with
  | none => skills_status
  | some sid =>
      if sid = "" then skills_status
      else aset skills_status sid
        (compute_subskill_progress s cp catalog thresholds)

/-- `generate_skill_progress_for_roadmap(roadmap, profile, course_catalog,
thresholds=None)`. -/
def generate_skill_progress_for_roadmap (roadmap : Roadmap)
    (profile : Profile) (course_catalog : List CourseRecord)
    (thresholds : Thresholds := {}) : List (String × SubskillStatus) :=
  let catalog := build_course_lookup course_catalog
  let cp := normalize_course_progress profile.platform_data.course_progress
  roadmap.subskills.foldl (skillStep cp catalog thresholds) []

/-!
### Concrete inputs used by witnesses and counterexamples

Spec §8 scenario 2: a subskill mapping course 1 at the beginner tier,
course 2 at the intermediate tier and course 3 at the advanced tier, with
the user having finished only course 1.
-/

/-- Catalog with courses 1..3 named C1..C3. -/
def exCatalog : List (Int × CatalogInfo) :=
  [(1, { course_name := some "C1" }), (2, { course_name := some "C2" }),
   (3, { course_name := some "C3" })]

/-- Subskill mapping one course per tier. -/
def exSubskill : Subskill :=
  { mapped_courses := { beginner := [1], intermediate := [2], advanced := [3] } }

/-- Raw course list for courses 1 and 2. -/
def exCourseList : List CourseRecord :=
  [{ course_id := some 1, course_name := some "C1" },
   { course_id := some 2, course_name := some "C2" }]

/-- Roadmap with a single subskill `s1` mapping courses 1 and 2 at the
beginner tier. -/
def exRoadmap : Roadmap :=
  { subskills := [{ id := some "s1",
                    mapped_courses := { beginner := [1, 2] } }] }

/-!
### Adaptive Roadmap Filter (src/app/adaptive_filter.py)

A roadmap subskill is a generic JSON dict here (the filter reads and
rewrites arbitrary keys); `Obj` is the association list of one dict.
-/

/-- A JSON dict, as an association list. -/
abbrev Obj := List (String × Val)

/-- `normalize_level(level)`: total normalization of a raw level value to
`beginner` / `intermediate` / `advanced`; falsy inputs, non-strings and
unrecognized strings default to `beginner`; `{status: ...}` records are
unwrapped; `completed`/`selesai`/`done` map to `advanced`,
`in_progress`/`ongoing` to `intermediate`. -/
def normalize_level (level : Val) : String :=
  if !pyTruthy level then "beginner"
  else
    let level := match level with
      | .dict d => (alookup "status" d).getD (.str "")
      | v => v
    match level with
    | .str s =>
      let lvl := pyLowerStrip s
      if lvl = "beginner" ∨ lvl = "intermediate" ∨ lvl = "advanced" then lvl
      else if lvl = "completed" ∨ lvl = "selesai" ∨ lvl = "done" then "advanced"
      else if lvl = "in_progress" ∨ lvl = "ongoing" then "intermediate"
      else "beginner"
    | _ => "beginner"

/-- The roadmap slice consumed by the adaptive filter: its `subskills`
list, each subskill a JSON dict.  (The source's guard for a falsy roadmap
or a missing `subskills` key returns `[]`; a non-dict `skill_status` is
coerced to `{}` — both concern malformed inputs outside the modelled
well-formed shapes.) -/
structure FilterRoadmap where
  subskills : List Obj := []

/-- `skill_status.get(sub.get("id"), {})`: the subskill's `id` value keys
into the status map when it is a string (skills_status keys are subskill
ids); otherwise the default `{}` applies. -/
def statusOf (skill_status : List (String × Val)) (sub : Obj) : Val :=
  match alookup "id" sub with
  | some (.str sid) => (alookup sid skill_status).getD (.dict [])
  | _ => .dict []

/-- The subskill loop of `filter_roadmap_for_user`: advanced subskills are
skipped; intermediate ones are copied with the `beginner` key popped from
a copy of their `levels` dict; everything else is copied unchanged.
(`new_sub.get("levels", {})` on a non-dict value would raise in `dict()`;
the modelled roadmaps carry dict-valued `levels`.) -/
def filterGo (skill_status : List (String × Val)) : List Obj → List Obj
  | [] => []
  | sub :: rest =>
    let user_level := normalize_level (statusOf skill_status sub)
    if user_level = "advanced" then filterGo skill_status rest
    else if user_level = "intermediate" then
      let levels : Obj := match alookup "levels" sub with
        | some (.dict d) => d
        | _ => []
      (aset sub "levels" (.dict (apop levels "beginner"))) :: filterGo skill_status rest
    else
      sub :: filterGo skill_status rest

/-- `filter_roadmap_for_user(roadmap, skill_status)`. -/
def filter_roadmap_for_user (roadmap : FilterRoadmap)
    (skill_status : List (String × Val)) : List Obj :=
  filterGo skill_status roadmap.subskills

/-- The per-subskill transform described by the spec: omit advanced,
strip the beginner tier for intermediate, keep everything else as-is. -/
def filterTransform (skill_status : List (String × Val)) (sub : Obj) :
    Option Obj :=
  if normalize_level (statusOf skill_status sub) = "advanced" then none
  else if normalize_level (statusOf skill_status sub) = "intermediate" then
    some (aset sub "levels" (.dict (apop
      (match alookup "levels" sub with
       | some (.dict d) => d
       | _ => []) "beginner")))
  else some sub

/-!
### Roadmap-progress patch construction (src/app/handler.py, lines 648-673)
-/

/-- The `roadmap_progress` patch written by the roadmap branch of
`handle_query`.  `created_at` is set only on a role switch.  The two
`datetime.utcnow()` calls are modelled by the single `now` timestamp. -/
structure RoadmapProgressPatch where
  job_role : String
  created_at : Option Int := none
  last_updated : Int
  subskills : List Obj
  skills_status : List (String × SubskillStatus)

/-- `prev_role and prev_role != job_role` (Python truthiness: a missing
or empty stored role is falsy). -/
def roleSwitch (prev_role : Option String) (job_role : String) : Bool :=
  match prev_role with
  | some r => r != "" && r != job_role
  | none => false

/-- Lines 648-673 of `handle_query`: on a role switch the patch carries a
fresh `created_at` and the freshly computed `skills_status`; otherwise
`skills_status` is `prev_skill_status or skill_status` (the stored status
when truthy, i.e. present and non-empty), with `job_role`, `last_updated`
and `subskills` refreshed. -/
def build_roadmap_progress_patch (now : Int) (job_role : String)
    (prev_role : Option String)
    (prev_skill_status : Option (List (String × SubskillStatus)))
    (filtered_subskills : List Obj)
    (skill_status : List (String × SubskillStatus)) : RoadmapProgressPatch :=
  if roleSwitch prev_role job_role then
    { job_role := job_role
      created_at := some now
      last_updated := now
      subskills := filtered_subskills
      skills_status := skill_status }
  else
    { job_role := job_role
      created_at := none
      last_updated := now
      subskills := filtered_subskills
      skills_status :=
        match prev_skill_status with
        | some m => if m.isEmpty then skill_status else m
        | none => skill_status }

/-!
### Retrieval Scorer (src/app/kb_utils.py, `query_kb_for_subskill`)

The embedding model and the FAISS index are external collaborators: the
scorer is embedded as a function of the nearest-neighbor candidate list
`(index, distance)` they return.
-/

/-- Split a character list into the maximal runs of characters rejected
by `sep` (the shape of `re.findall` over a character class). -/
def splitRunsAux (sep : Char → Bool) : List Char → List Char → List (List Char)
  | [], cur => if cur.isEmpty then [] else [cur.reverse]
  | c :: t, cur =>
    if sep c then
      if cur.isEmpty then splitRunsAux sep t []
      else cur.reverse :: splitRunsAux sep t []
    else splitRunsAux sep t (c :: cur)

/-- See `splitRunsAux`. -/
def splitRuns (sep : Char → Bool) (l : List Char) : List (List Char) :=
  splitRunsAux sep l []

/-- A `\w` word character (alphanumeric or underscore). -/
def isWordChar (c : Char) : Bool :=
  ('a' ≤ c && c ≤ 'z') || ('A' ≤ c && c ≤ 'Z') || ('0' ≤ c && c ≤ '9') || c == '_'

/-- `re.findall(r"\w+", s.lower())`: the word tokens of a lowercased
string. -/
def wordTokens (s : String) : List (List Char) :=
  splitRuns (fun c => !isWordChar c) (s.toList.map asciiLower)

/-- `len(set(a) & set(b))` for word-token lists. -/
def sharedCount (a b : List (List Char)) : ℕ :=
  (a.dedup.filter fun w => w ∈ b).length

/-- `normalize_text(s)` of kb_utils: lowercase, replace every character
outside `[a-z0-9\s]` by a space, collapse whitespace runs, strip. -/
def normalize_text (s : String) : String :=
  let mapped := (s.toList.map asciiLower).map fun c =>
    if ('a' ≤ c ∧ c ≤ 'z') ∨ ('0' ≤ c ∧ c ≤ '9') ∨ c.isWhitespace then c else ' '
  ⟨List.intercalate [' '] (splitRuns Char.isWhitespace mapped)⟩

/-- Does the haystack start with the needle? -/
def charsStartWith : List Char → List Char → Bool
  | [], _ => true
  | _ :: _, [] => false
  | c :: cs, d :: ds => c == d && charsStartWith cs ds

/-- Does the haystack contain the needle as a contiguous run? -/
def charsContain (nd : List Char) : List Char → Bool
  | [] => nd.isEmpty
  | c :: t => charsStartWith nd (c :: t) || charsContain nd t

/-- Python `x in y` on strings: substring containment. -/
def strIn (x y : String) : Bool := charsContain x.toList y.toList

/-- One KB row as consumed by the scorer: `title` and `type` after the
source's `str(row.get(...) or default)` coercions, `keywords` the decoded
keyword list (the source's JSON-string decoding of the pandas column is a
serialization detail), `id` the optional `id` column. -/
structure KBRow where
  id : Option Int := none
  title : String := ""
  typ : String := "unknown"
  keywords : List String := []

/-- One retained hit `{'id','title','type','score'}`. -/
structure Hit where
  id : Int
  title : String
  typ : String
  score : ℚ

/-- The per-candidate score:
`-dist + 0.15·|queryWords ∩ titleWords| + 0.3·[type == "course"] +
0.25·[some declared keyword's normalization contains / is contained in
the normalized query]`. -/
def scoreRow (subskill_name : String) (dist : ℚ) (row : KBRow) : ℚ :=
  let base_score : ℚ := -dist
  let title_bonus : ℚ :=
    (sharedCount (wordTokens subskill_name) (wordTokens row.title) : ℚ) * (15 / 100)
  let type_bonus : ℚ := if pyLower row.typ = "course" then 3 / 10 else 0
  let kw_bonus : ℚ := if row.keywords.any (fun w =>
      strIn (normalize_text w) (normalize_text subskill_name)
      || strIn (normalize_text subskill_name) (normalize_text w)) then 1 / 4 else 0
  base_score + title_bonus + type_bonus + kw_bonus

/-- The hit dict appended for one retained candidate (`rid` falls back to
the row index when the `id` column is absent). -/
def mkHit (subskill_name : String) (idx : Int) (dist : ℚ) (row : KBRow) : Hit :=
  { id := row.id.getD idx
    title := row.title
    typ := row.typ
    score := scoreRow subskill_name dist row }

/-- The candidate loop of `query_kb_for_subskill`: negative FAISS indices
and out-of-range rows are skipped; a candidate is appended iff its final
score reaches `score_threshold`; candidate order is preserved. -/
def scanCandidates (subskill_name : String) (kb : List KBRow)
    (score_threshold : ℚ) : List (Int × ℚ) → List Hit
  | [] => []
  | (idx, dist) :: rest =>
    if idx < 0 then scanCandidates subskill_name kb score_threshold rest
    else
      match kb[idx.toNat]? with
      | none => scanCandidates subskill_name kb score_threshold rest
      | some row =>
        if score_threshold ≤ (mkHit subskill_name idx dist row).score then
          mkHit subskill_name idx dist row
            :: scanCandidates subskill_name kb score_threshold rest
        else scanCandidates subskill_name kb score_threshold rest

/-- Descending-by-score order used by the final
`sorted(results, key=..., reverse=True)`. -/
def hitGE (a b : Hit) : Prop := b.score ≤ a.score

instance : DecidableRel hitGE :=
  fun a b => inferInstanceAs (Decidable (b.score ≤ a.score))

instance : IsTotal Hit hitGE := ⟨fun a b => le_total b.score a.score⟩

instance : IsTrans Hit hitGE := ⟨fun _ _ _ hab hbc => le_trans hbc hab⟩

/-- `query_kb_for_subskill(subskill_name, topk=8, score_threshold=0.18)`:
the FAISS search output is the `cands` list (`topk` only sizes that
external call); retained hits are sorted descending by score.  Python's
`sorted` is stable, and any stable sort for a total preorder computes the
same list — insertion sort here. -/
def query_kb_for_subskill (subskill_name : String)
    (cands : List (Int × ℚ)) (kb : List KBRow)
    (score_threshold : ℚ := 18 / 100) : List Hit :=
  List.insertionSort hitGE (scanCandidates subskill_name kb score_threshold cands)

/-!
### Heap model of `filter_roadmap_for_user` (frame property, C10)

To state the no-mutation claim, the filter is re-embedded against an
explicit object heap: each Python dict is a heap cell addressed by its
index, `dict(x)` allocates a fresh cell, and writes (`d["levels"] = ...`,
`d.pop(...)`) happen only on cells the function allocated itself.  Cell
entries are immutable payloads or references to other cells, so arbitrary
nesting is covered.
-/

/-- A heap value: a reference to another object, or an immutable payload. -/
inductive HVal : Type where
  | ref : Nat → HVal
  | imm : Val → HVal

/-- A heap object: one Python dict. -/
abbrev HObj := List (String × HVal)

/-- The heap: objects addressed by position; allocation appends. -/
abbrev Heap := List HObj

/-- Allocate a fresh object, returning the new heap and the address. -/
def halloc (h : Heap) (o : HObj) : Heap × Nat := (h ++ [o], h.length)

/-- The status lookup of the heap-model filter: the subskill's `id` entry
(an immutable string) keys into `skill_status`, which the filter only
reads. -/
def hStatusOf (skill_status : List (String × Val)) (sub : HObj) : Val :=
  match alookup "id" sub with
  | some (.imm (.str sid)) => (alookup sid skill_status).getD (.dict [])
  | _ => .dict []

/-- `filter_roadmap_for_user` on the heap, over the list of subskill
addresses: every included subskill is `dict(sub)` — a fresh cell; for
intermediate users the `levels` dict is copied, popped and the copy
installed in the fresh subskill. -/
def filterHeap (skill_status : List (String × Val)) :
    Heap → List Nat → Heap × List Nat
  | h, [] => (h, [])
  | h, addr :: rest =>
    let sub : HObj := (h[addr]?).getD []
    let user_level := normalize_level (hStatusOf skill_status sub)
    if user_level = "advanced" then filterHeap skill_status h rest
    else if user_level = "intermediate" then
      let levels : HObj := match alookup "levels" sub with
        | some (.ref b) => (h[b]?).getD []
        | _ => []
      let p1 := halloc h (apop levels "beginner")
      let p2 := halloc p1.1 (aset sub "levels" (.ref p1.2))
      let p3 := filterHeap skill_status p2.1 rest
      (p3.1, p2.2 :: p3.2)
    else
      let p1 := halloc h sub
      let p2 := filterHeap skill_status p1.1 rest
      (p2.1, p1.2 :: p2.2)

/-! ### Concrete inputs for the filter, patch and retrieval claims -/

/-- Subskill `s1` (its user level will normalize to advanced). -/
def exSub1 : Obj :=
  [("id", .str "s1"), ("name", .str "State"),
   ("levels", .dict [("beginner", .str "b1"), ("intermediate", .str "i1")])]

/-- Subskill `s2` (no status entry → beginner). -/
def exSub2 : Obj :=
  [("id", .str "s2"), ("levels", .dict [("beginner", .str "b2")])]

/-- Subskill `s3` (its user level will normalize to intermediate). -/
def exSub3 : Obj :=
  [("id", .str "s3"),
   ("levels", .dict [("beginner", .str "b3"), ("intermediate", .str "i3"),
                     ("advanced", .str "a3")])]

/-- Status map: `s1` completed (→ advanced), `s3` in_progress
(→ intermediate), `s2` absent (→ beginner). -/
def exFilterStatus : List (String × Val) :=
  [("s1", .dict [("status", .str "completed")]),
   ("s3", .dict [("status", .str "in_progress")])]

/-- Roadmap for the filter witness. -/
def exFilterRoadmap : FilterRoadmap :=
  { subskills := [exSub1, exSub2, exSub3] }

/-- A concrete per-subskill status record for the patch witness. -/
def exStatusRec : SubskillStatus :=
  { name := some "X", level := "Beginner", overall_percent := 10,
    per_level_percent := { beginner := some 10, intermediate := none,
                           advanced := none },
    source_course_ids := [1] }

/-- KB with two rows carrying only ids (spec: catalog insertion order is
row 10 then row 11). -/
def exKB : List KBRow := [{ id := some 10 }, { id := some 11 }]

/-- A course row matching spec §8 scenario 5. -/
def exQueryRow : KBRow :=
  { id := some 42, title := "Belajar Dasar HTML", typ := "course" }

/-- Singleton KB for the retrieval witness. -/
def exQueryKB : List KBRow := [exQueryRow]

/-! ## Theorems -/

theorem deep_merge_dicts (a b : List (String × Val)) :
    deep_merge (.dict a) (.dict b) = .dict (dmList a b) := by
  simp [deep_merge]

theorem deep_merge_not_both_dicts (a b : Val)
    (h : a.isDict = false ∨ b.isDict = false) : deep_merge a b = b := by
  cases a <;> cases b <;> simp_all [deep_merge, Val.isDict]

theorem alookup_eq_none {κ α : Type} [DecidableEq κ] {k : κ} :
    ∀ {l : List (κ × α)}, k ∉ akeys l → alookup k l = none
  | [], _ => rfl
  | (k', v) :: t, h => by
    have hk : k' ≠ k := by
      intro he; exact h (by simp [akeys, he])
    have ht : k ∉ akeys t := fun hm => h (by simp [akeys] at hm ⊢; exact .inr hm)
    simp [alookup, hk, alookup_eq_none ht]

theorem alookup_dmSet_self (l : List (String × Val)) (k : String) (v : Val) :
    alookup k (dmSet l k v) =
      some (match alookup k l with
            | some old => deep_merge old v
            | none => v) := by
  induction l with
  | nil => simp [dmSet, alookup]
  | cons hd t ih =>
    obtain ⟨k', v'⟩ := hd
    by_cases hk : k' = k
    · subst hk; simp [dmSet, alookup]
    · simp [dmSet, alookup, hk, ih]

theorem alookup_dmSet_ne (l : List (String × Val)) {k k' : String} (v : Val)
    (h : k' ≠ k) : alookup k' (dmSet l k v) = alookup k' l := by
  have h' : ¬ k = k' := fun he => h he.symm
  induction l with
  | nil => simp [dmSet, alookup, h']
  | cons hd t ih =>
    obtain ⟨k₀, v₀⟩ := hd
    by_cases hk : k₀ = k
    · subst hk; simp [dmSet, alookup, h']
    · simp [dmSet, alookup, hk, ih]

theorem dmSet_of_not_mem (l : List (String × Val)) (k : String) (v : Val)
    (h : k ∉ akeys l) : dmSet l k v = l ++ [(k, v)] := by
  induction l with
  | nil => simp [dmSet]
  | cons hd t ih =>
    obtain ⟨k₀, v₀⟩ := hd
    have hk : k₀ ≠ k := by intro he; exact h (by simp [akeys, he])
    have ht : k ∉ akeys t := fun hm => h (by simp [akeys] at hm ⊢; exact .inr hm)
    simp [dmSet, hk, ih ht]

theorem alookup_dmList (b : List (String × Val)) :
    ∀ a : List (String × Val), (akeys b).Nodup → ∀ k : String,
      alookup k (dmList a b) =
        match alookup k b with
        | some v => some (match alookup k a with
                          | some old => deep_merge old v
                          | none => v)
        | none => alookup k a := by
  induction b with
  | nil => intro a _ k; simp [dmList, alookup]
  | cons hd rest ih =>
    intro a hb k
    obtain ⟨k₀, v₀⟩ := hd
    have hb' : (akeys rest).Nodup := by
      simpa [akeys] using hb.of_cons
    have hk₀ : k₀ ∉ akeys rest := by
      simp [akeys] at hb ⊢
      exact hb.1
    rw [show dmList a ((k₀, v₀) :: rest) = dmList (dmSet a k₀ v₀) rest from by
      simp [dmList]]
    rw [ih (dmSet a k₀ v₀) hb' k]
    by_cases hk : k₀ = k
    · subst hk
      rw [alookup_eq_none hk₀]
      simp [alookup, alookup_dmSet_self]
    · have : alookup k (dmSet a k₀ v₀) = alookup k a :=
        alookup_dmSet_ne a v₀ (fun he => hk he.symm)
      simp [alookup, hk, this]

theorem dmList_disjoint (b : List (String × Val)) :
    ∀ a : List (String × Val), (∀ k ∈ akeys b, k ∉ akeys a) →
      (akeys b).Nodup → dmList a b = a ++ b := by
  induction b with
  | nil => intro a _ _; simp [dmList]
  | cons hd rest ih =>
    intro a hdisj hb
    obtain ⟨k₀, v₀⟩ := hd
    have hk₀a : k₀ ∉ akeys a := hdisj k₀ (by simp [akeys])
    have hb' : (akeys rest).Nodup := by simpa [akeys] using hb.of_cons
    have hk₀r : k₀ ∉ akeys rest := by
      simp [akeys] at hb ⊢
      exact hb.1
    have hdisj' : ∀ k ∈ akeys rest, k ∉ akeys (a ++ [(k₀, v₀)]) := by
      intro k hk hmem
      simp [akeys] at hmem
      rcases hmem with h | h
      · exact hdisj k (by simp [akeys] at hk ⊢; exact .inr hk) (by simp [akeys, h])
      · exact hk₀r (h ▸ hk)
    rw [show dmList a ((k₀, v₀) :: rest) = dmList (dmSet a k₀ v₀) rest from by
      simp [dmList]]
    rw [dmSet_of_not_mem a k₀ v₀ hk₀a, ih _ hdisj' hb']
    simp

/-- C4: the profile deep merge satisfies the merge laws: identity on an
empty overlay and an empty base, exact key union for disjoint key sets
(base keys first, in order), recursion on keys mapped to dicts on both
sides, wholesale replacement by the overlay value for any other overlay
key (in particular lists are replaced, never concatenated), and
preservation of base-only keys. -/
theorem C4_deep_merge_laws (a b : List (String × Val))
    (hb : (akeys b).Nodup) :
    deep_merge (.dict a) (.dict b) = .dict (dmList a b)
    ∧ dmList a [] = a
    ∧ dmList [] b = b
    ∧ ((∀ k ∈ akeys b, k ∉ akeys a) → dmList a b = a ++ b)
    ∧ (∀ k x y, alookup k a = some (.dict x) → alookup k b = some (.dict y) →
        alookup k (dmList a b) = some (deep_merge (.dict x) (.dict y)))
    ∧ (∀ k v, alookup k b = some v →
        (∀ old, alookup k a = some old → old.isDict = false ∨ v.isDict = false) →
        alookup k (dmList a b) = some v)
    ∧ (∀ k, alookup k b = none → alookup k (dmList a b) = alookup k a) := by
  refine ⟨deep_merge_dicts a b, by simp [dmList], ?_, ?_, ?_, ?_, ?_⟩
  · have := dmList_disjoint b [] (by simp [akeys]) hb
    simpa using this
  · intro hdisj; exact dmList_disjoint b a hdisj hb
  · intro k x y hax hby
    rw [alookup_dmList b a hb k, hby, hax]
  · intro k v hby hnd
    rw [alookup_dmList b a hb k, hby]
    cases hax : alookup k a with
    | none => simp
    | some old =>
      simp [deep_merge_not_both_dicts old v (hnd old hax)]
  · intro k hby
    rw [alookup_dmList b a hb k, hby]

/-- Witness for C4 at concrete dicts: `a = {xs: [1], m: {p: 1}, keep: 5}`,
`b = {xs: [2], m: {q: 2}}`.  The overlay list replaces the base list
wholesale, nested dicts are merged recursively, and the base-only key
survives. -/
theorem C4_deep_merge_laws_witness :
    alookup "xs" (dmList
        [("xs", Val.list [Val.num 1]), ("m", Val.dict [("p", Val.num 1)]),
         ("keep", Val.num 5)]
        [("xs", Val.list [Val.num 2]), ("m", Val.dict [("q", Val.num 2)])])
      = some (Val.list [Val.num 2])
    ∧ alookup "m" (dmList
        [("xs", Val.list [Val.num 1]), ("m", Val.dict [("p", Val.num 1)]),
         ("keep", Val.num 5)]
        [("xs", Val.list [Val.num 2]), ("m", Val.dict [("q", Val.num 2)])])
      = some (deep_merge (Val.dict [("p", Val.num 1)])
          (Val.dict [("q", Val.num 2)]))
    ∧ alookup "keep" (dmList
        [("xs", Val.list [Val.num 1]), ("m", Val.dict [("p", Val.num 1)]),
         ("keep", Val.num 5)]
        [("xs", Val.list [Val.num 2]), ("m", Val.dict [("q", Val.num 2)])])
      = alookup "keep"
          [("xs", Val.list [Val.num 1]), ("m", Val.dict [("p", Val.num 1)]),
           ("keep", Val.num 5)] := by
  refine ⟨?_, ?_, ?_⟩
  · refine (C4_deep_merge_laws _ _ (by decide)).2.2.2.2.2.1 "xs"
      (Val.list [Val.num 2]) rfl ?_
    intro old h
    rw [show alookup "xs"
        [("xs", Val.list [Val.num 1]), ("m", Val.dict [("p", Val.num 1)]),
         ("keep", Val.num 5)] = some (Val.list [Val.num 1]) from rfl] at h
    cases h
    exact Or.inl rfl
  · exact (C4_deep_merge_laws _ _ (by decide)).2.2.2.2.1 "m"
      [("p", Val.num 1)] [("q", Val.num 2)] rfl rfl
  · exact (C4_deep_merge_laws _ _ (by decide)).2.2.2.2.2.2 "keep" rfl

/-! ### Skill progress engine: supporting lemmas -/

theorem alookup_aset_self {κ α : Type} [DecidableEq κ]
    (l : List (κ × α)) (k : κ) (v : α) : alookup k (aset l k v) = some v := by
  induction l with
  | nil => simp [aset, alookup]
  | cons hd t ih =>
    obtain ⟨k', v'⟩ := hd
    by_cases h : k' = k
    · subst h; simp [aset, alookup]
    · simp [aset, alookup, h, ih]

theorem alookup_aset_ne {κ α : Type} [DecidableEq κ]
    (l : List (κ × α)) {k k' : κ} (v : α) (h : k' ≠ k) :
    alookup k' (aset l k v) = alookup k' l := by
  have h' : ¬ k = k' := fun he => h he.symm
  induction l with
  | nil => simp [aset, alookup, h']
  | cons hd t ih =>
    obtain ⟨k₀, v₀⟩ := hd
    by_cases hk : k₀ = k
    · subst hk; simp [aset, alookup, h']
    · simp [aset, alookup, hk, ih]

theorem tierMeets_iff {o : Option ℚ} {t : ℚ} :
    tierMeets o t = true ↔ ∃ v, o = some v ∧ t ≤ v := by
  cases o <;> simp [tierMeets]

theorem pyRound2_zero : pyRound2 0 = 0 := by
  norm_num [pyRound2, roundHalfEven]

/-- The four outcomes of the level-decision chain, at the default
thresholds, characterized by the tier averages. -/
theorem levelOf_default_cases (pb pi_ pa : Option ℚ) :
    (levelOf pb pi_ pa {} = "Advanced" ↔ (∃ v, pa = some v ∧ 80 ≤ v))
    ∧ (levelOf pb pi_ pa {} = "Intermediate" ↔
        ¬ (∃ v, pa = some v ∧ 80 ≤ v) ∧ (∃ v, pi_ = some v ∧ 40 ≤ v))
    ∧ (levelOf pb pi_ pa {} = "Beginner" ↔
        ¬ (∃ v, pa = some v ∧ 80 ≤ v) ∧ ¬ (∃ v, pi_ = some v ∧ 40 ≤ v)
        ∧ ((∃ v, pb = some v ∧ 1 ≤ v) ∨ (∃ v, pi_ = some v ∧ 1 ≤ v)
            ∨ (∃ v, pa = some v ∧ 1 ≤ v)))
    ∧ (levelOf pb pi_ pa {} = "not_started" ↔
        ¬ (∃ v, pa = some v ∧ 80 ≤ v) ∧ ¬ (∃ v, pi_ = some v ∧ 40 ≤ v)
        ∧ ¬ ((∃ v, pb = some v ∧ 1 ≤ v) ∨ (∃ v, pi_ = some v ∧ 1 ≤ v)
            ∨ (∃ v, pa = some v ∧ 1 ≤ v))) := by
  have hth : ({} : Thresholds) = ⟨80, 40, 1⟩ := rfl
  unfold levelOf
  rw [hth]
  dsimp only
  simp only [← tierMeets_iff, ← Bool.or_eq_true]
  by_cases cA : tierMeets pa 80 = true <;>
    by_cases cI : tierMeets pi_ 40 = true <;>
      by_cases cB : (tierMeets pb 1 || tierMeets pi_ 1 || tierMeets pa 1) = true <;>
        simp [cA, cI, cB]
  all_goals
    cases hb1 : tierMeets pb 1 <;> cases hi1 : tierMeets pi_ 1 <;>
      cases ha1 : tierMeets pa 1 <;> simp_all

/-- C1: with the default thresholds, `compute_subskill_progress` computes
per-tier averages where a tier with zero resolved courses yields `None`
(never 0), sets the overall percent to the mean of the non-`None` tier
averages (0 if all are `None`), and decides the level in strict priority
order: Advanced iff the advanced-tier average is non-null and ≥ 80, else
Intermediate iff the intermediate-tier average is non-null and ≥ 40, else
Beginner iff some tier average is non-null and ≥ 1, else `not_started`.
Returned percents carry the source's two-decimal display rounding
(`pyRound2`); the level is decided on the unrounded averages. -/
theorem C1_tiered_level_priority (subskill : Subskill)
    (cp : List (String × ℚ)) (catalog : List (Int × CatalogInfo)) :
    ((compute_subskill_progress subskill cp catalog).per_level_percent.beginner
        = (tierAvg (tierVals subskill.mapped_courses.beginner cp catalog)).map pyRound2
      ∧ (compute_subskill_progress subskill cp catalog).per_level_percent.intermediate
        = (tierAvg (tierVals subskill.mapped_courses.intermediate cp catalog)).map pyRound2
      ∧ (compute_subskill_progress subskill cp catalog).per_level_percent.advanced
        = (tierAvg (tierVals subskill.mapped_courses.advanced cp catalog)).map pyRound2)
    ∧ (tierVals subskill.mapped_courses.beginner cp catalog = [] →
        (compute_subskill_progress subskill cp catalog).per_level_percent.beginner = none)
    ∧ (tierVals subskill.mapped_courses.intermediate cp catalog = [] →
        (compute_subskill_progress subskill cp catalog).per_level_percent.intermediate = none)
    ∧ (tierVals subskill.mapped_courses.advanced cp catalog = [] →
        (compute_subskill_progress subskill cp catalog).per_level_percent.advanced = none)
    ∧ (compute_subskill_progress subskill cp catalog).overall_percent
        = pyRound2 (overallOf
            (tierAvg (tierVals subskill.mapped_courses.beginner cp catalog))
            (tierAvg (tierVals subskill.mapped_courses.intermediate cp catalog))
            (tierAvg (tierVals subskill.mapped_courses.advanced cp catalog)))
    ∧ (tierAvg (tierVals subskill.mapped_courses.beginner cp catalog) = none →
        tierAvg (tierVals subskill.mapped_courses.intermediate cp catalog) = none →
        tierAvg (tierVals subskill.mapped_courses.advanced cp catalog) = none →
        (compute_subskill_progress subskill cp catalog).overall_percent = 0)
    ∧ ((compute_subskill_progress subskill cp catalog).level = "Advanced" ↔
        (∃ v, tierAvg (tierVals subskill.mapped_courses.advanced cp catalog) = some v
          ∧ 80 ≤ v))
    ∧ ((compute_subskill_progress subskill cp catalog).level = "Intermediate" ↔
        ¬ (∃ v, tierAvg (tierVals subskill.mapped_courses.advanced cp catalog) = some v
            ∧ 80 ≤ v)
        ∧ (∃ v, tierAvg (tierVals subskill.mapped_courses.intermediate cp catalog) = some v
            ∧ 40 ≤ v))
    ∧ ((compute_subskill_progress subskill cp catalog).level = "Beginner" ↔
        ¬ (∃ v, tierAvg (tierVals subskill.mapped_courses.advanced cp catalog) = some v
            ∧ 80 ≤ v)
        ∧ ¬ (∃ v, tierAvg (tierVals subskill.mapped_courses.intermediate cp catalog) = some v
            ∧ 40 ≤ v)
        ∧ ((∃ v, tierAvg (tierVals subskill.mapped_courses.beginner cp catalog) = some v
              ∧ 1 ≤ v)
            ∨ (∃ v, tierAvg (tierVals subskill.mapped_courses.intermediate cp catalog) = some v
              ∧ 1 ≤ v)
            ∨ (∃ v, tierAvg (tierVals subskill.mapped_courses.advanced cp catalog) = some v
              ∧ 1 ≤ v)))
    ∧ ((compute_subskill_progress subskill cp catalog).level = "not_started" ↔
        ¬ (∃ v, tierAvg (tierVals subskill.mapped_courses.advanced cp catalog) = some v
            ∧ 80 ≤ v)
        ∧ ¬ (∃ v, tierAvg (tierVals subskill.mapped_courses.intermediate cp catalog) = some v
            ∧ 40 ≤ v)
        ∧ ¬ ((∃ v, tierAvg (tierVals subskill.mapped_courses.beginner cp catalog) = some v
              ∧ 1 ≤ v)
            ∨ (∃ v, tierAvg (tierVals subskill.mapped_courses.intermediate cp catalog) = some v
              ∧ 1 ≤ v)
            ∨ (∃ v, tierAvg (tierVals subskill.mapped_courses.advanced cp catalog) = some v
              ∧ 1 ≤ v))) := by
  have hpb : (compute_subskill_progress subskill cp catalog).per_level_percent.beginner
      = (tierAvg (tierVals subskill.mapped_courses.beginner cp catalog)).map pyRound2 := rfl
  have hpi : (compute_subskill_progress subskill cp catalog).per_level_percent.intermediate
      = (tierAvg (tierVals subskill.mapped_courses.intermediate cp catalog)).map pyRound2 := rfl
  have hpa : (compute_subskill_progress subskill cp catalog).per_level_percent.advanced
      = (tierAvg (tierVals subskill.mapped_courses.advanced cp catalog)).map pyRound2 := rfl
  have hov : (compute_subskill_progress subskill cp catalog).overall_percent
      = pyRound2 (overallOf
          (tierAvg (tierVals subskill.mapped_courses.beginner cp catalog))
          (tierAvg (tierVals subskill.mapped_courses.intermediate cp catalog))
          (tierAvg (tierVals subskill.mapped_courses.advanced cp catalog))) := rfl
  have hlev : (compute_subskill_progress subskill cp catalog).level
      = levelOf (tierAvg (tierVals subskill.mapped_courses.beginner cp catalog))
          (tierAvg (tierVals subskill.mapped_courses.intermediate cp catalog))
          (tierAvg (tierVals subskill.mapped_courses.advanced cp catalog)) {} := rfl
  obtain ⟨cAdv, cInt, cBeg, cNS⟩ := levelOf_default_cases
    (tierAvg (tierVals subskill.mapped_courses.beginner cp catalog))
    (tierAvg (tierVals subskill.mapped_courses.intermediate cp catalog))
    (tierAvg (tierVals subskill.mapped_courses.advanced cp catalog))
  refine ⟨⟨hpb, hpi, hpa⟩, ?_, ?_, ?_, hov, ?_, ?_, ?_, ?_, ?_⟩
  · intro h; rw [hpb, h]; rfl
  · intro h; rw [hpi, h]; rfl
  · intro h; rw [hpa, h]; rfl
  · intro hb hi ha
    rw [hov, hb, hi, ha, show overallOf none none none = 0 from rfl, pyRound2_zero]
  · exact hlev ▸ cAdv
  · exact hlev ▸ cInt
  · exact hlev ▸ cBeg
  · exact hlev ▸ cNS

/-- Witness for C1 at spec §8 scenario 2: `mappedCourses =
{beginner:[1], intermediate:[2], advanced:[3]}`, progress `{C1: 100}`
(courses 2 and 3 untouched): beginner average 100, other tiers `None`,
overall 100, level `Beginner` — not Advanced. -/
theorem C1_tiered_level_priority_witness :
    (compute_subskill_progress exSubskill [("C1", 100)] exCatalog).level = "Beginner"
    ∧ (compute_subskill_progress exSubskill [("C1", 100)] exCatalog).overall_percent = 100
    ∧ (compute_subskill_progress exSubskill [("C1", 100)] exCatalog).per_level_percent.beginner
        = some 100
    ∧ (compute_subskill_progress exSubskill [("C1", 100)] exCatalog).per_level_percent.intermediate
        = none
    ∧ (compute_subskill_progress exSubskill [("C1", 100)] exCatalog).per_level_percent.advanced
        = none := by
  have h := C1_tiered_level_priority exSubskill [("C1", 100)] exCatalog
  have hvb : tierVals exSubskill.mapped_courses.beginner [("C1", (100 : ℚ))]
      exCatalog = [100] := by decide
  have hvi : tierVals exSubskill.mapped_courses.intermediate [("C1", (100 : ℚ))]
      exCatalog = [] := by decide
  have hva : tierVals exSubskill.mapped_courses.advanced [("C1", (100 : ℚ))]
      exCatalog = [] := by decide
  have hab : tierAvg (tierVals exSubskill.mapped_courses.beginner
      [("C1", (100 : ℚ))] exCatalog) = some 100 := by
    rw [hvb]; norm_num [tierAvg]
  have hai : tierAvg (tierVals exSubskill.mapped_courses.intermediate
      [("C1", (100 : ℚ))] exCatalog) = none := by
    rw [hvi]; rfl
  have haa : tierAvg (tierVals exSubskill.mapped_courses.advanced
      [("C1", (100 : ℚ))] exCatalog) = none := by
    rw [hva]; rfl
  refine ⟨?_, ?_, ?_, ?_, ?_⟩
  · apply (h.2.2.2.2.2.2.2.2.1).mpr
    refine ⟨?_, ?_, Or.inl ⟨100, hab, by norm_num⟩⟩
    · rintro ⟨v, hv, -⟩; rw [haa] at hv; exact Option.noConfusion hv
    · rintro ⟨v, hv, -⟩; rw [hai] at hv; exact Option.noConfusion hv
  · rw [h.2.2.2.2.1, hab, hai, haa]
    norm_num [overallOf, pyRound2, roundHalfEven]
  · rw [h.1.1, hab]
    norm_num [pyRound2, roundHalfEven]
  · rw [h.1.2.1, hai]; rfl
  · rw [h.1.2.2, haa]; rfl

/-- C2 counterexample: the record returned by the tiered Skill Progress
Calculator contains no `status` field at all — its dict has exactly the
keys `name`, `level`, `overall_percent`, `per_level_percent`,
`source_course_ids` — so the claimed
not_started/in_progress/completed `status` derivation does not exist in
`compute_subskill_progress` (it lives only in the legacy flat engine of
`roadmap_engine.py`).  Evaluated at a subskill with no mapped courses. -/
theorem C2_counterexample_no_status_key :
    Val.dictKeys (SubskillStatus.toVal (compute_subskill_progress {} [] []))
      = ["name", "level", "overall_percent", "per_level_percent",
         "source_course_ids"]
    ∧ "status" ∉ Val.dictKeys (SubskillStatus.toVal
        (compute_subskill_progress {} [] [])) := by
  exact ⟨rfl, by decide⟩

/-- C2 (amended): the SkillStatus dict produced by the tiered Skill
Progress Calculator has no `status` field; a subskill with no mapped
courses at any tier resolves unconditionally to level `not_started` with
overall percent 0. -/
theorem C2_unmapped_subskill_not_started (subskill : Subskill)
    (cp : List (String × ℚ)) (catalog : List (Int × CatalogInfo))
    (h : subskill.mapped_courses = {}) :
    (compute_subskill_progress subskill cp catalog).level = "not_started"
    ∧ (compute_subskill_progress subskill cp catalog).overall_percent = 0
    ∧ "status" ∉ Val.dictKeys (SubskillStatus.toVal
        (compute_subskill_progress subskill cp catalog)) := by
  have hb : tierVals subskill.mapped_courses.beginner cp catalog = [] := by
    rw [h]; rfl
  have hi : tierVals subskill.mapped_courses.intermediate cp catalog = [] := by
    rw [h]; rfl
  have ha : tierVals subskill.mapped_courses.advanced cp catalog = [] := by
    rw [h]; rfl
  obtain ⟨-, -, -, -, -, hoz, -, -, -, hns⟩ :=
    C1_tiered_level_priority subskill cp catalog
  refine ⟨?_, ?_, ?_⟩
  · refine hns.mpr ⟨?_, ?_, ?_⟩
    · rintro ⟨v, hv, -⟩; rw [ha] at hv; exact Option.noConfusion hv
    · rintro ⟨v, hv, -⟩; rw [hi] at hv; exact Option.noConfusion hv
    · rintro (⟨v, hv, -⟩ | ⟨v, hv, -⟩ | ⟨v, hv, -⟩)
      · rw [hb] at hv; exact Option.noConfusion hv
      · rw [hi] at hv; exact Option.noConfusion hv
      · rw [ha] at hv; exact Option.noConfusion hv
  · exact hoz (by rw [hb]; rfl) (by rw [hi]; rfl) (by rw [ha]; rfl)
  · rw [show Val.dictKeys (SubskillStatus.toVal
        (compute_subskill_progress subskill cp catalog))
        = ["name", "level", "overall_percent", "per_level_percent",
           "source_course_ids"] from rfl]
    decide

/-- Witness for C2 (amended) at a concrete unmapped subskill. -/
theorem C2_unmapped_subskill_not_started_witness :
    (compute_subskill_progress { id := some "s9" } [("C1", 50)] exCatalog).level
      = "not_started"
    ∧ (compute_subskill_progress { id := some "s9" } [("C1", 50)] exCatalog).overall_percent
      = 0
    ∧ "status" ∉ Val.dictKeys (SubskillStatus.toVal
        (compute_subskill_progress { id := some "s9" } [("C1", 50)] exCatalog)) :=
  C2_unmapped_subskill_not_started { id := some "s9" } [("C1", 50)] exCatalog rfl

/-- C8 (code bug): the claim and the function's own docstring
("Returns percent (0-100) or None") require every resolved percent to be
clamped to `max(0, min(100, p))`, but the case-insensitive fallback branch
of `_safe_get_course_progress_by_id` returns the stored value unclamped:
with catalog name "HTML" and progress map `{"html": 150}`, the direct
lookup misses, the fallback matches, and 150 is returned instead of 100. -/
theorem C8_fallback_unclamped_code_bug :
    safe_get_course_progress_by_id 7 [("html", 150)]
        [(7, { course_name := some "HTML" })] = some 150
    ∧ ¬ ((150 : ℚ) = max 0 (min 100 150)) := by
  exact ⟨by decide, by norm_num⟩

/-! ### C9: malformed numeric progress values -/

theorem normalizeFold_eq_filter (raw : List (String × Val)) :
    ∀ acc : List (String × ℚ),
      raw.foldl cpStep acc
        = (raw.filter fun kv => (pyFloat kv.2).isSome).foldl cpStep acc := by
  induction raw with
  | nil => intro acc; rfl
  | cons kv rest ih =>
    intro acc
    by_cases h : (pyFloat kv.2).isSome
    · simp only [List.foldl_cons, List.filter_cons, h, if_pos]
      exact ih (cpStep acc kv)
    · have hstep : cpStep acc kv = acc := by
        unfold cpStep
        cases hf : pyFloat kv.2 with
        | none => rfl
        | some q => rw [hf] at h; simp at h
      simp only [List.foldl_cons, List.filter_cons, h, hstep]
      exact ih acc

theorem skillStep_isSome_mono (cp : List (String × ℚ))
    (catalog : List (Int × CatalogInfo)) (th : Thresholds)
    (acc : List (String × SubskillStatus)) (s : Subskill) (sid : String)
    (h : (alookup sid acc).isSome) :
    (alookup sid (skillStep cp catalog th acc s)).isSome := by
  unfold skillStep
  cases hid : s.id with
  | none => exact h
  | some sid' =>
    by_cases he : sid' = ""
    · simp [he, h]
    · simp only [he, if_neg, ite_false]
      by_cases hk : sid = sid'
      · subst hk; rw [alookup_aset_self]; rfl
      · rw [alookup_aset_ne _ _ hk]; exact h

theorem skillStep_foldl_isSome (cp : List (String × ℚ))
    (catalog : List (Int × CatalogInfo)) (th : Thresholds)
    (l : List Subskill) :
    ∀ acc : List (String × SubskillStatus), ∀ sid : String,
      ((alookup sid acc).isSome ∨ ∃ s ∈ l, s.id = some sid ∧ sid ≠ "") →
      (alookup sid (l.foldl (skillStep cp catalog th) acc)).isSome := by
  induction l with
  | nil =>
    intro acc sid h
    rcases h with h | ⟨s, hs, -⟩
    · exact h
    · exact absurd hs (List.not_mem_nil s)
  | cons s t ih =>
    intro acc sid h
    rcases h with h | ⟨s', hs', hid, hne⟩
    · exact ih _ sid (Or.inl (skillStep_isSome_mono cp catalog th acc s sid h))
    · rcases List.mem_cons.mp hs' with he | ht
      · subst he
        refine ih _ sid (Or.inl ?_)
        unfold skillStep
        rw [hid]
        simp only [hne, if_neg, ite_false]
        rw [alookup_aset_self]
        rfl
      · exact ih _ sid (Or.inr ⟨s', ht, hid, hne⟩)

/-- C9 counterexample: the claim says an unparseable `course_progress`
value is "treated as progress 0"; the code instead drops the entry.  With
one subskill mapping courses 1 and 2 at the beginner tier and progress
`{"C1": 100, "C2": "xyz"}`, the engine yields overall percent 100
(the malformed entry is absent from the tier average), while an engine
coercing the entry to 0 — as run on `{"C1": 100, "C2": 0}` — yields 50. -/
theorem C9_counterexample_dropped_not_zero :
    (alookup "s1" (generate_skill_progress_for_roadmap exRoadmap
        { platform_data := { course_progress :=
            [("C1", .num 100), ("C2", .str "xyz")] } }
        exCourseList)).map SubskillStatus.overall_percent = some 100
    ∧ (alookup "s1" (generate_skill_progress_for_roadmap exRoadmap
        { platform_data := { course_progress :=
            [("C1", .num 100), ("C2", .num 0)] } }
        exCourseList)).map SubskillStatus.overall_percent = some 50
    ∧ ¬ ((100 : ℚ) = 50) := by
  have hov1 : (compute_subskill_progress
      { id := some "s1", mapped_courses := { beginner := [1, 2] } }
      [("C1", 100)] (build_course_lookup exCourseList)).overall_percent
      = pyRound2 (overallOf
          (tierAvg (tierVals [1, 2] [("C1", 100)] (build_course_lookup exCourseList)))
          none none) := rfl
  have hov2 : (compute_subskill_progress
      { id := some "s1", mapped_courses := { beginner := [1, 2] } }
      [("C1", 100), ("C2", 0)] (build_course_lookup exCourseList)).overall_percent
      = pyRound2 (overallOf
          (tierAvg (tierVals [1, 2] [("C1", 100), ("C2", 0)]
            (build_course_lookup exCourseList)))
          none none) := rfl
  have ho1 : (compute_subskill_progress
      { id := some "s1", mapped_courses := { beginner := [1, 2] } }
      [("C1", 100)] (build_course_lookup exCourseList)).overall_percent = 100 := by
    rw [hov1, show tierVals [1, 2] [("C1", (100 : ℚ))]
        (build_course_lookup exCourseList) = [100] from by decide]
    norm_num [tierAvg, overallOf, pyRound2, roundHalfEven]
  have ho2 : (compute_subskill_progress
      { id := some "s1", mapped_courses := { beginner := [1, 2] } }
      [("C1", 100), ("C2", 0)] (build_course_lookup exCourseList)).overall_percent
      = 50 := by
    rw [hov2, show tierVals [1, 2] [("C1", (100 : ℚ)), ("C2", 0)]
        (build_course_lookup exCourseList) = [100, 0] from by decide]
    norm_num [tierAvg, overallOf, pyRound2, roundHalfEven]
  refine ⟨?_, ?_, by norm_num⟩
  · have hcp : normalize_course_progress [("C1", .num 100), ("C2", .str "xyz")]
        = [("C1", 100)] := by decide
    unfold generate_skill_progress_for_roadmap
    rw [hcp]
    unfold exRoadmap
    simp only [List.foldl_cons, List.foldl_nil, skillStep]
    rw [if_neg (by decide : ¬ ("s1" = "")), alookup_aset_self]
    exact congrArg some ho1
  · have hcp : normalize_course_progress [("C1", .num 100), ("C2", .num 0)]
        = [("C1", 100), ("C2", 0)] := by decide
    unfold generate_skill_progress_for_roadmap
    rw [hcp]
    unfold exRoadmap
    simp only [List.foldl_cons, List.foldl_nil, skillStep]
    rw [if_neg (by decide : ¬ ("s1" = "")), alookup_aset_self]
    exact congrArg some ho2

/-- C9 (amended): an unparseable `course_progress` value raises no error
and the entry is dropped (treated as absent, not coerced to 0): the
normalized progress map equals the one computed from the parseable entries
alone, and the evaluation still succeeds for every subskill — every
subskill with a truthy id receives an entry in the produced
`skills_status`. -/
theorem C9_malformed_progress_never_fails (raw : List (String × Val))
    (roadmap : Roadmap) (profile : Profile)
    (course_catalog : List CourseRecord) (s : Subskill) (sid : String)
    (hs : s ∈ roadmap.subskills) (hid : s.id = some sid) (hne : sid ≠ "") :
    normalize_course_progress raw
      = normalize_course_progress (raw.filter fun kv => (pyFloat kv.2).isSome)
    ∧ (alookup sid (generate_skill_progress_for_roadmap roadmap profile
        course_catalog)).isSome := by
  constructor
  · exact normalizeFold_eq_filter raw []
  · unfold generate_skill_progress_for_roadmap
    exact skillStep_foldl_isSome _ _ _ roadmap.subskills []
      sid (Or.inr ⟨s, hs, hid, hne⟩)

/-- Witness for C9 (amended) at the concrete scenario of the
counterexample. -/
theorem C9_malformed_progress_never_fails_witness :
    normalize_course_progress [("C1", .num 100), ("C2", .str "xyz")]
      = normalize_course_progress
          ([("C1", Val.num 100), ("C2", Val.str "xyz")].filter
            fun kv => (pyFloat kv.2).isSome)
    ∧ (alookup "s1" (generate_skill_progress_for_roadmap exRoadmap
        { platform_data := { course_progress :=
            [("C1", .num 100), ("C2", .str "xyz")] } }
        exCourseList)).isSome :=
  C9_malformed_progress_never_fails
    [("C1", .num 100), ("C2", .str "xyz")] exRoadmap
    { platform_data := { course_progress :=
        [("C1", .num 100), ("C2", .str "xyz")] } }
    exCourseList
    { id := some "s1", mapped_courses := { beginner := [1, 2] } } "s1"
    (List.mem_singleton.mpr rfl) rfl (by decide)

/-! ### C7: adaptive roadmap filter -/

theorem alookup_apop_ne {κ α : Type} [DecidableEq κ]
    (l : List (κ × α)) {k k' : κ} (h : k' ≠ k) :
    alookup k' (apop l k) = alookup k' l := by
  have h' : ¬ k = k' := fun he => h he.symm
  induction l with
  | nil => rfl
  | cons hd t ih =>
    obtain ⟨k₀, v₀⟩ := hd
    by_cases hk : k₀ = k
    · subst hk; simp [apop, alookup, h']
    · simp [apop, alookup, hk, ih]

theorem alookup_apop_self {κ α : Type} [DecidableEq κ]
    (l : List (κ × α)) (k : κ) (hnd : (akeys l).Nodup) :
    alookup k (apop l k) = none := by
  induction l with
  | nil => rfl
  | cons hd t ih =>
    obtain ⟨k₀, v₀⟩ := hd
    have hnd' : (akeys t).Nodup := by simpa [akeys] using hnd.of_cons
    by_cases hk : k₀ = k
    · subst hk
      have hnm : k₀ ∉ akeys t := by
        simp [akeys] at hnd ⊢
        exact hnd.1
      simp [apop, alookup_eq_none hnm]
    · simp [apop, alookup, hk, ih hnd']

theorem filterGo_eq_filterMap (skill_status : List (String × Val)) :
    ∀ l : List Obj,
      filterGo skill_status l = l.filterMap (filterTransform skill_status) := by
  intro l
  induction l with
  | nil => rfl
  | cons sub rest ih =>
    simp only [filterGo, filterTransform, List.filterMap_cons]
    by_cases ha : normalize_level (statusOf skill_status sub) = "advanced"
    · simp [ha, ih]
    · by_cases hi : normalize_level (statusOf skill_status sub) = "intermediate"
      · simp [ha, hi, ih]
      · simp [ha, hi, ih]

/-- C7: `filter_roadmap_for_user` is the order-preserving per-subskill
transform given by the spec: a subskill whose normalized level is advanced
is omitted entirely; an intermediate one is included with the `beginner`
entry removed from (a copy of) its `levels` dict and every other key —
including the `intermediate`/`advanced` tiers — unchanged; a beginner or
unrecognized one is included unmodified. -/
theorem C7_filter_roadmap_transform (roadmap : FilterRoadmap)
    (skill_status : List (String × Val)) :
    filter_roadmap_for_user roadmap skill_status
      = roadmap.subskills.filterMap (filterTransform skill_status)
    ∧ (∀ sub ∈ roadmap.subskills,
        normalize_level (statusOf skill_status sub) = "advanced" →
          filterTransform skill_status sub = none)
    ∧ (∀ sub ∈ roadmap.subskills,
        normalize_level (statusOf skill_status sub) ≠ "advanced" →
        normalize_level (statusOf skill_status sub) ≠ "intermediate" →
          filterTransform skill_status sub = some sub)
    ∧ (∀ sub ∈ roadmap.subskills,
        normalize_level (statusOf skill_status sub) = "intermediate" →
        ∀ d, alookup "levels" sub = some (.dict d) →
          filterTransform skill_status sub
              = some (aset sub "levels" (.dict (apop d "beginner")))
          ∧ ((akeys d).Nodup →
              alookup "beginner" (apop d "beginner") = none)
          ∧ (∀ k, k ≠ "beginner" →
              alookup k (apop d "beginner") = alookup k d)
          ∧ (∀ k, k ≠ "levels" →
              alookup k (aset sub "levels" (.dict (apop d "beginner")))
                = alookup k sub)) := by
  refine ⟨filterGo_eq_filterMap skill_status roadmap.subskills, ?_, ?_, ?_⟩
  · intro sub _ ha
    simp [filterTransform, ha]
  · intro sub _ ha hi
    simp [filterTransform, ha, hi]
  · intro sub _ hi d hd
    have ha : normalize_level (statusOf skill_status sub) ≠ "advanced" := by
      rw [hi]; decide
    refine ⟨?_, ?_, ?_, ?_⟩
    · simp [filterTransform, ha, hi, hd]
    · intro hnd; exact alookup_apop_self d "beginner" hnd
    · intro k hk; exact alookup_apop_ne d hk
    · intro k hk; exact alookup_aset_ne sub _ hk

/-- Witness for C7: roadmap `[s1, s2, s3]`, user completed `s1`
(advanced → omitted), has no status for `s2` (included unmodified),
in_progress on `s3` (intermediate → beginner tier stripped, other tiers
kept). -/
theorem C7_filter_roadmap_transform_witness :
    filter_roadmap_for_user exFilterRoadmap exFilterStatus
      = [exSub2, aset exSub3 "levels" (.dict
          [("intermediate", Val.str "i3"), ("advanced", Val.str "a3")])]
    ∧ filterTransform exFilterStatus exSub1 = none
    ∧ filterTransform exFilterStatus exSub2 = some exSub2 := by
  have h := C7_filter_roadmap_transform exFilterRoadmap exFilterStatus
  refine ⟨?_, ?_, ?_⟩
  · rw [h.1]; rfl
  · exact h.2.1 exSub1 (by simp [exFilterRoadmap]) (by decide)
  · exact h.2.2.1 exSub2 (by simp [exFilterRoadmap]) (by decide) (by decide)

/-! ### C3: roadmap-progress patch construction -/

/-- C3: when the stored role is truthy and differs from the new role, the
patch's `skills_status` is entirely the freshly computed map and a fresh
`created_at` is recorded; when the stored role equals the new role, the
stored status is preferred whenever present and non-empty, no new
`created_at` is recorded, and `job_role`/`last_updated`/`subskills` are
refreshed. -/
theorem C3_role_switch_reset (now : Int) (job_role : String)
    (prev_skill_status : Option (List (String × SubskillStatus)))
    (filtered_subskills : List Obj)
    (skill_status : List (String × SubskillStatus)) :
    (∀ r, r ≠ "" → r ≠ job_role →
      (build_roadmap_progress_patch now job_role (some r) prev_skill_status
          filtered_subskills skill_status).skills_status = skill_status
      ∧ (build_roadmap_progress_patch now job_role (some r) prev_skill_status
          filtered_subskills skill_status).created_at = some now
      ∧ (build_roadmap_progress_patch now job_role (some r) prev_skill_status
          filtered_subskills skill_status).job_role = job_role
      ∧ (build_roadmap_progress_patch now job_role (some r) prev_skill_status
          filtered_subskills skill_status).last_updated = now
      ∧ (build_roadmap_progress_patch now job_role (some r) prev_skill_status
          filtered_subskills skill_status).subskills = filtered_subskills)
    ∧ ((build_roadmap_progress_patch now job_role (some job_role)
          prev_skill_status filtered_subskills skill_status).job_role = job_role
      ∧ (build_roadmap_progress_patch now job_role (some job_role)
          prev_skill_status filtered_subskills skill_status).created_at = none
      ∧ (build_roadmap_progress_patch now job_role (some job_role)
          prev_skill_status filtered_subskills skill_status).last_updated = now
      ∧ (build_roadmap_progress_patch now job_role (some job_role)
          prev_skill_status filtered_subskills skill_status).subskills
            = filtered_subskills
      ∧ (∀ m, prev_skill_status = some m → m ≠ [] →
          (build_roadmap_progress_patch now job_role (some job_role)
            prev_skill_status filtered_subskills skill_status).skills_status = m)
      ∧ ((prev_skill_status = none ∨ prev_skill_status = some []) →
          (build_roadmap_progress_patch now job_role (some job_role)
            prev_skill_status filtered_subskills skill_status).skills_status
              = skill_status)) := by
  constructor
  · intro r h1 h2
    have hsw : roleSwitch (some r) job_role = true := by
      simp [roleSwitch, h1, h2]
    refine ⟨?_, ?_, ?_, ?_, ?_⟩ <;>
      simp [build_roadmap_progress_patch, hsw]
  · have hsw : roleSwitch (some job_role) job_role = false := by
      simp [roleSwitch]
    refine ⟨?_, ?_, ?_, ?_, ?_, ?_⟩
    · simp [build_roadmap_progress_patch, hsw]
    · simp [build_roadmap_progress_patch, hsw]
    · simp [build_roadmap_progress_patch, hsw]
    · simp [build_roadmap_progress_patch, hsw]
    · intro m hm hne
      simp [build_roadmap_progress_patch, hsw, hm,
        List.isEmpty_iff, hne]
    · rintro (hp | hp) <;>
        simp [build_roadmap_progress_patch, hsw, hp]

/-- Witness for C3: role switch Android → Front-End resets the status to
the fresh map with a fresh `created_at`; unchanged role keeps the stored
non-empty status and records no `created_at`. -/
theorem C3_role_switch_reset_witness :
    (build_roadmap_progress_patch 5 "Front-End Web Developer"
        (some "Android Developer") (some [("old", exStatusRec)]) []
        [("new", exStatusRec)]).skills_status = [("new", exStatusRec)]
    ∧ (build_roadmap_progress_patch 5 "Front-End Web Developer"
        (some "Android Developer") (some [("old", exStatusRec)]) []
        [("new", exStatusRec)]).created_at = some 5
    ∧ (build_roadmap_progress_patch 5 "Front-End Web Developer"
        (some "Front-End Web Developer") (some [("old", exStatusRec)]) []
        [("new", exStatusRec)]).skills_status = [("old", exStatusRec)]
    ∧ (build_roadmap_progress_patch 5 "Front-End Web Developer"
        (some "Front-End Web Developer") (some [("old", exStatusRec)]) []
        [("new", exStatusRec)]).created_at = none := by
  have h1 := (C3_role_switch_reset 5 "Front-End Web Developer"
      (some [("old", exStatusRec)]) [] [("new", exStatusRec)]).1
      "Android Developer" (by decide) (by decide)
  have h2 := (C3_role_switch_reset 5 "Front-End Web Developer"
      (some [("old", exStatusRec)]) [] [("new", exStatusRec)]).2
  exact ⟨h1.1, h1.2.1,
    h2.2.2.2.2.1 [("old", exStatusRec)] rfl (by simp),
    h2.2.1⟩

/-! ### C10: the filter mutates neither input (heap model) -/

theorem heap_extends_trans {h1 h2 x : Heap}
    (hx : ∃ t, x = h2 ++ t) (hh : ∃ t, h2 = h1 ++ t) :
    ∃ t, x = h1 ++ t := by
  obtain ⟨t1, rfl⟩ := hx
  obtain ⟨t2, rfl⟩ := hh
  exact ⟨t2 ++ t1, by simp⟩

theorem filterHeap_extends (skill_status : List (String × Val)) :
    ∀ (addrs : List Nat) (h : Heap),
      ∃ t, (filterHeap skill_status h addrs).1 = h ++ t := by
  intro addrs
  induction addrs with
  | nil => intro h; exact ⟨[], by simp [filterHeap]⟩
  | cons addr rest ih =>
    intro h
    simp only [filterHeap, halloc]
    split_ifs with hadv hint
    · exact ih h
    · exact heap_extends_trans (ih _) ⟨_, List.append_assoc _ _ _⟩
    · exact heap_extends_trans (ih _) ⟨_, rfl⟩

/-- C10: `filter_roadmap_for_user` leaves its inputs unchanged: in the
heap model every pre-existing cell — the subskill dicts of the roadmap,
each subskill's `levels` dict and anything they reference — holds the
same object after the call (the final heap is the input heap plus fresh
allocations only), and the `skill_status` map is only ever read. -/
theorem C10_filter_no_mutation (skill_status : List (String × Val))
    (addrs : List Nat) (h : Heap) :
    (∃ t, (filterHeap skill_status h addrs).1 = h ++ t)
    ∧ (∀ a, a < h.length →
        ((filterHeap skill_status h addrs).1)[a]? = h[a]?) := by
  obtain ⟨t, ht⟩ := filterHeap_extends skill_status addrs h
  refine ⟨⟨t, ht⟩, ?_⟩
  intro a ha
  rw [ht]
  exact List.getElem?_append_left ha

/-- Witness for C10 at a concrete two-cell heap: subskill at address 0
referencing its levels dict at address 1, user level intermediate. -/
theorem C10_filter_no_mutation_witness :
    (∃ t, (filterHeap [("s3", Val.dict [("status", Val.str "in_progress")])]
        [[("id", HVal.imm (Val.str "s3")), ("levels", HVal.ref 1)],
         [("beginner", HVal.imm (Val.str "b")),
          ("intermediate", HVal.imm (Val.str "i"))]] [0]).1
      = [[("id", HVal.imm (Val.str "s3")), ("levels", HVal.ref 1)],
         [("beginner", HVal.imm (Val.str "b")),
          ("intermediate", HVal.imm (Val.str "i"))]] ++ t)
    ∧ ((filterHeap [("s3", Val.dict [("status", Val.str "in_progress")])]
        [[("id", HVal.imm (Val.str "s3")), ("levels", HVal.ref 1)],
         [("beginner", HVal.imm (Val.str "b")),
          ("intermediate", HVal.imm (Val.str "i"))]] [0]).1)[1]?
      = some [("beginner", HVal.imm (Val.str "b")),
              ("intermediate", HVal.imm (Val.str "i"))] := by
  have h := C10_filter_no_mutation
    [("s3", Val.dict [("status", Val.str "in_progress")])]
    [0]
    [[("id", HVal.imm (Val.str "s3")), ("levels", HVal.ref 1)],
     [("beginner", HVal.imm (Val.str "b")),
      ("intermediate", HVal.imm (Val.str "i"))]]
  exact ⟨h.1, (h.2 1 (by decide)).trans rfl⟩

/-! ### C5, C6: retrieval scorer -/

theorem scanCandidates_score_ge (subskill_name : String) (kb : List KBRow)
    (th : ℚ) : ∀ cands : List (Int × ℚ),
    ∀ h ∈ scanCandidates subskill_name kb th cands, th ≤ h.score := by
  intro cands
  induction cands with
  | nil => intro h hh; simp [scanCandidates] at hh
  | cons c rest ih =>
    obtain ⟨idx, dist⟩ := c
    intro h hh
    simp only [scanCandidates] at hh
    by_cases hneg : idx < 0
    · rw [if_pos hneg] at hh
      exact ih h hh
    · rw [if_neg hneg] at hh
      cases hrow : kb[idx.toNat]? with
      | none => rw [hrow] at hh; exact ih h hh
      | some row =>
        rw [hrow] at hh
        dsimp only at hh
        by_cases hth : th ≤ (mkHit subskill_name idx dist row).score
        · rw [if_pos hth] at hh
          rcases List.mem_cons.mp hh with he | ht
          · exact he ▸ hth
          · exact ih h ht
        · rw [if_neg hth] at hh
          exact ih h hh

theorem mem_scanCandidates (subskill_name : String) (kb : List KBRow)
    (th : ℚ) (idx : Int) (dist : ℚ) (row : KBRow)
    (hpos : ¬ idx < 0) (hrow : kb[idx.toNat]? = some row)
    (hth : th ≤ (mkHit subskill_name idx dist row).score) :
    ∀ cands : List (Int × ℚ), (idx, dist) ∈ cands →
      mkHit subskill_name idx dist row
        ∈ scanCandidates subskill_name kb th cands := by
  intro cands
  induction cands with
  | nil => intro hmem; exact absurd hmem (List.not_mem_nil _)
  | cons c rest ih =>
    intro hmem
    obtain ⟨i0, d0⟩ := c
    rcases List.mem_cons.mp hmem with he | ht
    · obtain ⟨h1, h2⟩ := Prod.mk.injEq .. ▸ he
      subst h1; subst h2
      simp only [scanCandidates]
      rw [if_neg hpos, hrow]
      dsimp only
      rw [if_pos hth]
      exact List.mem_cons_self _ _
    · have hrec := ih ht
      simp only [scanCandidates]
      by_cases hneg : i0 < 0
      · rw [if_pos hneg]; exact hrec
      · rw [if_neg hneg]
        cases hrow0 : kb[i0.toNat]? with
        | none => exact hrec
        | some row0 =>
          dsimp only
          by_cases hth0 : th ≤ (mkHit subskill_name i0 d0 row0).score
          · rw [if_pos hth0]
            exact List.mem_cons_of_mem _ hrec
          · rw [if_neg hth0]; exact hrec

/-- C5: for every valid nearest-neighbor candidate, the score equals
`-distance + 0.15·sharedTitleWords + 0.3·[type=course] + 0.25·[keyword
containment either way]`, and the candidate's hit appears in the result
iff that score reaches the threshold. -/
theorem C5_retrieval_score_and_threshold (subskill_name : String)
    (cands : List (Int × ℚ)) (kb : List KBRow) (score_threshold : ℚ)
    (idx : Int) (dist : ℚ) (row : KBRow)
    (hmem : (idx, dist) ∈ cands) (hpos : ¬ idx < 0)
    (hrow : kb[idx.toNat]? = some row) :
    scoreRow subskill_name dist row
      = -dist
        + (sharedCount (wordTokens subskill_name) (wordTokens row.title) : ℚ)
          * (15 / 100)
        + (if pyLower row.typ = "course" then 3 / 10 else 0)
        + (if row.keywords.any (fun w =>
            strIn (normalize_text w) (normalize_text subskill_name)
            || strIn (normalize_text subskill_name) (normalize_text w))
           then 1 / 4 else 0)
    ∧ (mkHit subskill_name idx dist row
        ∈ query_kb_for_subskill subskill_name cands kb score_threshold
      ↔ score_threshold ≤ scoreRow subskill_name dist row) := by
  refine ⟨rfl, ?_⟩
  unfold query_kb_for_subskill
  rw [(List.perm_insertionSort hitGE _).mem_iff]
  constructor
  · intro hmem'
    exact scanCandidates_score_ge subskill_name kb score_threshold cands _ hmem'
  · intro hth
    exact mem_scanCandidates subskill_name kb score_threshold idx dist row
      hpos hrow hth cands hmem

/-- The concrete score of spec §8 scenario 5: query "HTML Dasar" against
the course "Belajar Dasar HTML" at vector distance 0.2: two shared title
words and the course-type bonus give `-0.2 + 0.3 + 0.3 = 0.4`. -/
theorem exQueryRow_score :
    scoreRow "HTML Dasar" (1 / 5) exQueryRow = 2 / 5 := by
  simp only [scoreRow, exQueryRow]
  rw [show sharedCount (wordTokens "HTML Dasar")
      (wordTokens "Belajar Dasar HTML") = 2 from by decide]
  rw [if_pos (show pyLower "course" = "course" from by decide)]
  simp only [List.any_nil, Bool.false_eq_true, if_false]
  norm_num

/-- Witness for C5 at spec §8 scenario 5. -/
theorem C5_retrieval_score_and_threshold_witness :
    mkHit "HTML Dasar" 0 (1 / 5) exQueryRow
      ∈ query_kb_for_subskill "HTML Dasar" [(0, 1 / 5)] exQueryKB (18 / 100)
    ∧ scoreRow "HTML Dasar" (1 / 5) exQueryRow = 2 / 5 := by
  constructor
  · refine (C5_retrieval_score_and_threshold "HTML Dasar" [(0, 1 / 5)]
      exQueryKB (18 / 100) 0 (1 / 5) exQueryRow
      (List.mem_singleton.mpr rfl) (by decide) rfl).2.mpr ?_
    rw [exQueryRow_score]
    norm_num
  · exact exQueryRow_score

theorem filter_score_orderedInsert (c : ℚ) (a : Hit) (l : List Hit) :
    (List.orderedInsert hitGE a l).filter (fun h => decide (h.score = c))
      = if a.score = c
        then a :: l.filter (fun h => decide (h.score = c))
        else l.filter (fun h => decide (h.score = c)) := by
  rw [List.orderedInsert_eq_take_drop]
  rw [List.filter_append]
  have htake : ∀ x ∈ l.takeWhile fun b => decide ¬ hitGE a b,
      a.score < x.score := by
    intro x hx
    have hpx := List.mem_takeWhile_imp hx
    simp only [decide_eq_true_eq, hitGE, not_le] at hpx
    exact hpx
  by_cases hc : a.score = c
  · rw [if_pos hc]
    have hnil : (l.takeWhile fun b => decide ¬ hitGE a b).filter
        (fun h => decide (h.score = c)) = [] := by
      rw [List.filter_eq_nil_iff]
      intro x hx
      have := htake x hx
      simp only [decide_eq_true_eq]
      intro hxc
      rw [hxc, hc] at this
      exact lt_irrefl c this
    rw [hnil, List.filter_cons]
    rw [if_pos (by simpa using hc)]
    have : l.filter (fun h => decide (h.score = c))
        = ((l.takeWhile fun b => decide ¬ hitGE a b)
            ++ (l.dropWhile fun b => decide ¬ hitGE a b)).filter
          (fun h => decide (h.score = c)) := by
      rw [List.takeWhile_append_dropWhile]
    rw [this, List.filter_append, hnil]
    simp
  · rw [if_neg hc]
    rw [List.filter_cons]
    rw [if_neg (by simpa using hc)]
    have : l.filter (fun h => decide (h.score = c))
        = ((l.takeWhile fun b => decide ¬ hitGE a b)
            ++ (l.dropWhile fun b => decide ¬ hitGE a b)).filter
          (fun h => decide (h.score = c)) := by
      rw [List.takeWhile_append_dropWhile]
    rw [this, List.filter_append]

theorem insertionSort_score_stable (c : ℚ) :
    ∀ l : List Hit,
      (List.insertionSort hitGE l).filter (fun h => decide (h.score = c))
        = l.filter (fun h => decide (h.score = c)) := by
  intro l
  induction l with
  | nil => rfl
  | cons a t ih =>
    simp only [List.insertionSort]
    rw [filter_score_orderedInsert c a (List.insertionSort hitGE t)]
    by_cases hc : a.score = c
    · rw [if_pos hc, ih, List.filter_cons, if_pos (by simpa using hc)]
    · rw [if_neg hc, ih, List.filter_cons, if_neg (by simpa using hc)]

/-- C6 (amended): the returned list is sorted in non-increasing score
order; ties between equal scores keep the nearest-neighbor candidate
order — the sort is stable over the threshold-filtered candidate scan
(not over catalog insertion order, see the counterexample) — and no
returned hit has a score below the threshold. -/
theorem C6_retrieval_ranking (subskill_name : String)
    (cands : List (Int × ℚ)) (kb : List KBRow) (score_threshold : ℚ) :
    (query_kb_for_subskill subskill_name cands kb score_threshold).Sorted hitGE
    ∧ (∀ h ∈ query_kb_for_subskill subskill_name cands kb score_threshold,
        score_threshold ≤ h.score)
    ∧ (∀ c : ℚ,
        (query_kb_for_subskill subskill_name cands kb score_threshold).filter
            (fun h => decide (h.score = c))
          = (scanCandidates subskill_name kb score_threshold cands).filter
            (fun h => decide (h.score = c))) := by
  refine ⟨List.sorted_insertionSort hitGE _, ?_, ?_⟩
  · intro h hm
    refine scanCandidates_score_ge subskill_name kb score_threshold cands h ?_
    exact (List.perm_insertionSort hitGE _).mem_iff.mp hm
  · intro c
    exact insertionSort_score_stable c _

/-- The candidate scan of the tie scenario: both rows score `0`. -/
theorem exTie_scoreRow (i : Option Int) (d : ℚ) :
    scoreRow "q" d { id := i } = -d := by
  simp only [scoreRow]
  rw [show sharedCount (wordTokens "q") (wordTokens "") = 0 from by decide]
  rw [if_neg (show ¬ pyLower "unknown" = "course" from by decide)]
  simp only [List.any_nil, Bool.false_eq_true, if_false]
  norm_num

/-- Evaluation of the tie scenario: candidates arrive in FAISS order
(row 1 first, row 0 second), both with distance 0 and final score 0 at
threshold 0; both are retained, and the stable sort keeps them in
candidate order. -/
theorem exTie_eval :
    query_kb_for_subskill "q" [(1, 0), (0, 0)] exKB 0
      = [mkHit "q" 1 0 { id := some 11 }, mkHit "q" 0 0 { id := some 10 }] := by
  have h1 : (0 : ℚ) ≤ (mkHit "q" 1 0 ({ id := some 11 } : KBRow)).score := by
    show (0 : ℚ) ≤ scoreRow "q" 0 { id := some 11 }
    rw [exTie_scoreRow]
    norm_num
  have h0 : (0 : ℚ) ≤ (mkHit "q" 0 0 ({ id := some 10 } : KBRow)).score := by
    show (0 : ℚ) ≤ scoreRow "q" 0 { id := some 10 }
    rw [exTie_scoreRow]
    norm_num
  have hscan : scanCandidates "q" exKB 0 [(1, 0), (0, 0)]
      = [mkHit "q" 1 0 { id := some 11 }, mkHit "q" 0 0 { id := some 10 }] := by
    simp only [scanCandidates]
    rw [if_neg (show ¬ ((1 : Int) < 0) from by decide)]
    rw [show exKB[((1 : Int)).toNat]? = some ({ id := some 11 } : KBRow)
      from rfl]
    dsimp only
    rw [if_pos h1]
    rw [if_neg (show ¬ ((0 : Int) < 0) from by decide)]
    rw [show exKB[((0 : Int)).toNat]? = some ({ id := some 10 } : KBRow)
      from rfl]
    dsimp only
    rw [if_pos h0]
  have hge : hitGE (mkHit "q" 1 0 { id := some 11 })
      (mkHit "q" 0 0 { id := some 10 }) := by
    show (mkHit "q" 0 0 ({ id := some 10 } : KBRow)).score
      ≤ (mkHit "q" 1 0 ({ id := some 11 } : KBRow)).score
    show scoreRow "q" 0 { id := some 10 } ≤ scoreRow "q" 0 { id := some 11 }
    rw [exTie_scoreRow, exTie_scoreRow]
  unfold query_kb_for_subskill
  rw [hscan]
  simp only [List.insertionSort, List.orderedInsert]
  rw [if_pos hge]

/-- C6 counterexample: ties are not broken by catalog insertion order.
Rows 10 and 11 (catalog order: 10 first) tie at score 0; the candidates
arrive in the nearest-neighbor order row 1 (id 11) then row 0 (id 10),
and the result keeps that order — `[11, 10]`, not the catalog order
`[10, 11]`. -/
theorem C6_counterexample_tie_not_catalog_order :
    (query_kb_for_subskill "q" [(1, 0), (0, 0)] exKB 0).map Hit.id = [11, 10]
    ∧ (query_kb_for_subskill "q" [(1, 0), (0, 0)] exKB 0).map Hit.score
        = [0, 0]
    ∧ ¬ (([11, 10] : List Int) = [10, 11]) := by
  refine ⟨?_, ?_, by decide⟩
  · rw [exTie_eval]; rfl
  · rw [exTie_eval]
    show [scoreRow "q" 0 { id := some 11 }, scoreRow "q" 0 { id := some 10 }]
      = [0, 0]
    rw [exTie_scoreRow, exTie_scoreRow]
    norm_num

/-- Witness for C6 (amended) at the tie scenario. -/
theorem C6_retrieval_ranking_witness :
    (query_kb_for_subskill "q" [(1, 0), (0, 0)] exKB 0).Sorted hitGE
    ∧ (0 : ℚ) ≤ (mkHit "q" 1 0 ({ id := some 11 } : KBRow)).score := by
  constructor
  · exact (C6_retrieval_ranking "q" [(1, 0), (0, 0)] exKB 0).1
  · apply (C6_retrieval_ranking "q" [(1, 0), (0, 0)] exKB 0).2.1
    rw [exTie_eval]
    exact List.mem_cons_self _ _

end MDB
